import Mathlib

/-!
Verification of the transcript-formatting core of the youtube-transcript-bot
repository (file `youtube_utils.py`), against its natural-language design
specification.

The Python functions are shallowly embedded as Lean definitions:

* floats carrying second offsets become rational numbers `ℚ`;
* `int(...)`, `//` and `%` on those values become `Int.floor` based
  operations (`pyMod` below mirrors the Python `%` on a positive divisor);
* the external caption service (`YouTubeTranscriptApi().fetch`) becomes an
  oracle parameter `fetch : Option String → Except String (List CaptionEntry)`
  where `fetch (some lang)` is a fetch restricted to one language code,
  `fetch none` is the unrestricted fetch, a thrown exception becomes
  `Except.error` carrying `str(e)`, and a returned track becomes a list of
  caption entries (the order as received);
* the metadata service call inside `get_video_title` becomes a
  `TitleResponse` parameter (an exception, or a status code plus the optional
  `title` field of the decoded JSON body);
* `datetime.now()` renderings become explicit string parameters.
-/

/-! ## Timestamp formatting (`format_timestamp`, youtube_utils.py lines 45-56) -/

/-- Zero-padded two-digit rendering, as Python `f"{n:02d}"` renders the
nonnegative component values produced by `format_timestamp`. -/
def pad2 (n : Nat) : String :=
  if n < 10 then "0" ++ toString n else toString n

/-- Python `a % b` on rationals for the positive divisors used in the source:
`a - b * (a // b)` with `//` the floor of the true quotient. -/
def pyMod (a b : ℚ) : ℚ := a - b * (⌊a / b⌋ : ℚ)

/-- Embedding of `format_timestamp(seconds)`: `hours = int(seconds // 3600)`,
`minutes = int((seconds % 3600) // 60)`, `seconds = int(seconds % 60)`, then
`"HH:MM:SS"` if `hours > 0` else `"MM:SS"`.  For the nonnegative inputs the
claims quantify over, every component is nonnegative, so Python `int`
truncation coincides with the floor and `f"{n:02d}"` with `pad2`. -/
def format_timestamp (seconds : ℚ) : String :=
  let hours : ℤ := ⌊seconds / 3600⌋
  let minutes : ℤ := ⌊pyMod seconds 3600 / 60⌋
  let secs : ℤ := ⌊pyMod seconds 60⌋
  if hours > 0 then
    pad2 hours.toNat ++ ":" ++ pad2 minutes.toNat ++ ":" ++ pad2 secs.toNat
  else
    pad2 minutes.toNat ++ ":" ++ pad2 secs.toNat

/-- From the claim wording (not the source): truncate the seconds value to a
whole number of seconds, then `hours = s div 3600`,
`minutes = (s mod 3600) div 60`, `secs = s mod 60`, rendered `HH:MM:SS`
zero-padded when `hours > 0` and `MM:SS` zero-padded otherwise. -/
def spec_format_timestamp (s : ℚ) : String :=
  let n : ℕ := ⌊s⌋₊
  let hours : ℕ := n / 3600
  let minutes : ℕ := n % 3600 / 60
  let secs : ℕ := n % 60
  if hours > 0 then
    pad2 hours ++ ":" ++ pad2 minutes ++ ":" ++ pad2 secs
  else
    pad2 minutes ++ ":" ++ pad2 secs

theorem floor_q_div_natCast (a : ℚ) (n : ℕ) (ha : 0 ≤ a) :
    ⌊a / (n : ℚ)⌋ = ((⌊a⌋₊ / n : ℕ) : ℤ) := by
  have h0 : 0 ≤ a / (n : ℚ) := div_nonneg ha (by positivity)
  have h1 : ((⌊a / (n : ℚ)⌋.toNat : ℕ) : ℤ) = ⌊a / (n : ℚ)⌋ :=
    Int.toNat_of_nonneg (Int.floor_nonneg.mpr h0)
  rw [← h1, Int.floor_toNat, Nat.floor_div_nat]

theorem floor_natFloor_of_nonneg (a : ℚ) (ha : 0 ≤ a) : ⌊a⌋ = (⌊a⌋₊ : ℤ) := by
  have h1 : ((⌊a⌋.toNat : ℕ) : ℤ) = ⌊a⌋ :=
    Int.toNat_of_nonneg (Int.floor_nonneg.mpr ha)
  rw [← h1, Int.floor_toNat]

theorem pyMod_floor (a : ℚ) (n : ℕ) (ha : 0 ≤ a) :
    ⌊pyMod a (n : ℚ)⌋ = ((⌊a⌋₊ % n : ℕ) : ℤ) := by
  unfold pyMod
  rw [floor_q_div_natCast a n ha]
  have h2 : (n : ℚ) * (((⌊a⌋₊ / n : ℕ) : ℤ) : ℚ) = ((n * (⌊a⌋₊ / n) : ℕ) : ℚ) := by
    norm_cast
  rw [h2, Int.floor_sub_nat, floor_natFloor_of_nonneg a ha]
  have h3 : ⌊a⌋₊ % n + n * (⌊a⌋₊ / n) = ⌊a⌋₊ := Nat.mod_add_div ⌊a⌋₊ n
  generalize ⌊a⌋₊ % n = r at *
  generalize ⌊a⌋₊ / n = q at *
  omega

theorem pyMod_nonneg (a b : ℚ) (hb : 0 < b) : 0 ≤ pyMod a b := by
  unfold pyMod
  have h1 : (⌊a / b⌋ : ℚ) ≤ a / b := Int.floor_le _
  have h2 : (⌊a / b⌋ : ℚ) * b ≤ a := (le_div_iff₀ hb).mp h1
  nlinarith

theorem format_timestamp_eq_spec (s : ℚ) (hs : 0 ≤ s) :
    format_timestamp s = spec_format_timestamp s := by
  unfold format_timestamp spec_format_timestamp
  have e3600 : (3600 : ℚ) = ((3600 : ℕ) : ℚ) := by norm_num
  have e60 : (60 : ℚ) = ((60 : ℕ) : ℚ) := by norm_num
  rw [e3600, e60]
  rw [floor_q_div_natCast s 3600 hs,
      floor_q_div_natCast (pyMod s ((3600 : ℕ) : ℚ)) 60 (pyMod_nonneg s _ (by norm_num)),
      pyMod_floor s 60 hs]
  have hm : ⌊pyMod s ((3600 : ℕ) : ℚ)⌋₊ = ⌊s⌋₊ % 3600 := by
    have h1 := pyMod_floor s 3600 hs
    have h2 := floor_natFloor_of_nonneg (pyMod s ((3600 : ℕ) : ℚ))
      (pyMod_nonneg s _ (by norm_num))
    omega
  rw [hm]
  simp only [Int.toNat_natCast]
  have hpos : (0 : ℤ) < ((⌊s⌋₊ / 3600 : ℕ) : ℤ) ↔ 0 < ⌊s⌋₊ / 3600 := by
    exact_mod_cast Iff.rfl
  by_cases h : 0 < ⌊s⌋₊ / 3600
  · rw [if_pos (hpos.mpr h), if_pos h]
  · rw [if_neg (fun hc => h (hpos.mp hc)), if_neg h]

/-- C1: `format_timestamp` truncates to whole seconds, splits with
`div`/`mod` by 3600 and 60, renders `HH:MM:SS` (hours unbounded) when
hours are positive and `MM:SS` otherwise, all components zero-padded to two
digits; with the four concrete values the specification lists. -/
theorem C1_format_timestamp_spec :
    (∀ s : ℚ, 0 ≤ s → format_timestamp s = spec_format_timestamp s) ∧
    format_timestamp 0 = "00:00" ∧
    format_timestamp 65 = "01:05" ∧
    format_timestamp 3661 = "01:01:01" ∧
    format_timestamp (3600 * 100) = "100:00:00" := by
  refine ⟨format_timestamp_eq_spec, ?_, ?_, ?_, ?_⟩
  · rw [format_timestamp_eq_spec 0 (by norm_num)]
    simp only [spec_format_timestamp, Nat.floor_zero]
    decide
  · rw [format_timestamp_eq_spec 65 (by norm_num)]
    simp only [spec_format_timestamp, Nat.floor_ofNat]
    decide
  · rw [format_timestamp_eq_spec 3661 (by norm_num)]
    simp only [spec_format_timestamp, Nat.floor_ofNat]
    decide
  · rw [format_timestamp_eq_spec (3600 * 100) (by norm_num)]
    have h1 : ((3600 : ℚ) * 100) = ((360000 : ℕ) : ℚ) := by norm_num
    simp only [spec_format_timestamp, h1, Nat.floor_natCast]
    decide

theorem C1_format_timestamp_spec_witness :
    format_timestamp (131 / 2) = spec_format_timestamp (131 / 2) :=
  C1_format_timestamp_spec.1 (131 / 2) (by norm_num)

/-! ## Filename sanitization (`get_youtube_transcript`, lines 106-109)

`safe_title = re.sub(r'[^\w\s-]', '', video_title)` followed by
`safe_title = re.sub(r'[-\s]+', '_', safe_title)` and
`filename = f"(safe_title)_(video_id)_(YYYYMMDD).txt"`.

The character classes are embedded at the code points the repository's
titles use: `\w` is letter, digit or underscore, `\s` is the whitespace
class. -/

/-- Python regex class `\s`. -/
def isPySpace (c : Char) : Bool :=
  c = ' ' || c = '\t' || c = '\n' || c = '\r' || c = '\x0b' || c = '\x0c'

/-- Python regex class `\w`: letters, digits, and the underscore. -/
def isPyWordChar (c : Char) : Bool :=
  c.isAlphanum || c = '_'

/-- Characters kept by `re.sub(r'[^\w\s-]', '', title)`. -/
def sanitizeKeep (c : Char) : Bool :=
  isPyWordChar c || isPySpace c || c = '-'

/-- Characters collapsed by `re.sub(r'[-\s]+', '_', ...)`. -/
def isDashSpace (c : Char) : Bool :=
  c = '-' || isPySpace c

/-- Replacement of each maximal run of `[-\s]` characters with a single
underscore; the boolean records whether the previous character was part of
such a run. -/
def collapseAux : Bool → List Char → List Char
  | _, [] => []
  | inRun, c :: rest =>
    if isDashSpace c then
      if inRun then collapseAux true rest
      else '_' :: collapseAux true rest
    else c :: collapseAux false rest

/-- Embedding of the `safe_title` computation (lines 107-108). -/
def safe_title (title : String) : String :=
  String.mk (collapseAux false ((title.toList).filter sanitizeKeep))

/-- Embedding of the filename computation (line 109); the extraction date
string `datetime.now().strftime` produces is a parameter. -/
def make_filename (title video_id date : String) : String :=
  safe_title title ++ "_" ++ video_id ++ "_" ++ date ++ ".txt"

/-- From the claim wording (not the source): remove every character that is
not a letter, digit, whitespace or hyphen — in particular, remove
underscores — then collapse runs of hyphen/whitespace to one underscore. -/
def claim_keep (c : Char) : Bool :=
  c.isAlpha || c.isDigit || isPySpace c || c = '-'

/-- Filename derivation as the claim words it. -/
def claim_filename (title video_id date : String) : String :=
  String.mk (collapseAux false ((title.toList).filter claim_keep)) ++
    "_" ++ video_id ++ "_" ++ date ++ ".txt"

/-- C2 counterexample: the claim omits the underscore from the kept
characters, but Python `\w` keeps it: on the title `"a_b"` the code
produces `"a_b_x_20240101.txt"` while the claimed rule produces
`"ab_x_20240101.txt"`. -/
theorem C2_filename_counterexample :
    make_filename "a_b" "x" "20240101" = "a_b_x_20240101.txt" ∧
    claim_filename "a_b" "x" "20240101" = "ab_x_20240101.txt" ∧
    make_filename "a_b" "x" "20240101" ≠ claim_filename "a_b" "x" "20240101" := by
  refine ⟨by decide, by decide, by decide⟩

/-- Amended keep set: letters, digits, the underscore, whitespace and the
hyphen (Python `[^\w\s-]` removes exactly the other characters). -/
def amended_keep (c : Char) : Bool :=
  c.isAlpha || c.isDigit || c = '_' || isPySpace c || c = '-'

/-- Filename derivation as amended: keep letters, digits, underscores,
whitespace and hyphens, then collapse hyphen/whitespace runs to `_`. -/
def amended_filename (title video_id date : String) : String :=
  String.mk (collapseAux false ((title.toList).filter amended_keep)) ++
    "_" ++ video_id ++ "_" ++ date ++ ".txt"

theorem sanitizeKeep_eq_amended (c : Char) : sanitizeKeep c = amended_keep c := by
  simp only [sanitizeKeep, isPyWordChar, Char.isAlphanum, amended_keep, Bool.or_assoc]

/-- C2 amended: the output filename keeps every letter, digit, underscore,
whitespace character and hyphen of the title, drops all other characters,
collapses each maximal hyphen/whitespace run into one underscore and appends
`_<video_id>_<date>.txt`; the concrete example of the claim holds. -/
theorem C2_filename_amended :
    (∀ title video_id date : String,
      make_filename title video_id date = amended_filename title video_id date) ∧
    make_filename "My Video! (Test)" "abc123" "20240101" =
      "My_Video_Test_abc123_20240101.txt" := by
  constructor
  · intro title video_id date
    unfold make_filename amended_filename safe_title
    have h : (title.toList).filter sanitizeKeep = (title.toList).filter amended_keep :=
      List.filter_congr (fun c _ => by rw [sanitizeKeep_eq_amended])
    rw [h]
  · decide

/-! ## Transcript resolution (`get_youtube_transcript`, lines 59-114)

The caption service is an oracle `fetch : Option String → Except String
(List CaptionEntry)`: `fetch (some lang)` embeds
`YouTubeTranscriptApi().fetch(video_id, languages=[lang])`, `fetch none`
embeds the unrestricted `YouTubeTranscriptApi().fetch(video_id)`; an
`Except.error e` is a raised exception with `str(e) = e`, an `Except.ok`
is the returned track.  `not transcript_list` in Python is true both for
`None` (no fetch succeeded yet) and for an empty returned track. -/

/-- One caption entry: a start offset in seconds and a text. -/
structure CaptionEntry where
  start : ℚ
  text : String
deriving DecidableEq

/-- Oracle type for the caption service. -/
def FetchOracle : Type := Option String → Except String (List CaptionEntry)

/-- Line 65: the fixed language priority list. -/
def language_priority : List String := ["hi", "hi-IN", "en", "en-US", "en-GB"]

/-- Lines 70-76: the priority loop.  The first language whose fetch does not
raise wins, the loop breaks with `transcript_list` and `found_language`
set; per-language exceptions are swallowed and the next code is tried. -/
def tryPriority (fetch : FetchOracle) : List String → Option (List CaptionEntry × String)
  | [] => none
  | lang :: rest =>
    match fetch (some lang) with
    | Except.ok tl => some (tl, lang)
    | Except.error _ => tryPriority fetch rest

/-- Line 79: the guard `if not transcript_list:` after the loop — true when
the loop found nothing, or when the fetched track is the empty list. -/
def auto_attempted (fetch : FetchOracle) : Bool :=
  match tryPriority fetch language_priority with
  | none => true
  | some (tl, _) => tl.isEmpty

/-- Outcome of the metadata call inside `get_video_title` (lines 29-42):
an exception (connection error, timeout, JSON decode failure), or a
response with a status code and the optional `title` field of its body. -/
inductive TitleResponse where
  | err : TitleResponse
  | resp : Nat → Option String → TitleResponse

/-- Embedding of `get_video_title` (lines 29-42): on a 200 response return
the `title` field when present; on any other status, a missing field or an
exception return the fallback `Video_<video_id>`. -/
def get_video_title (r : TitleResponse) (video_id : String) : String :=
  match r with
  | TitleResponse.err => "Video_" ++ video_id
  | TitleResponse.resp status title =>
    if status = 200 then
      match title with
      | some t => t
      | none => "Video_" ++ video_id
    else "Video_" ++ video_id

/-- Lines 102-104: one body line per caption entry, `[<timestamp>] <text>`
with the entry text stripped of leading and trailing whitespace. -/
def pyStrip (s : String) : String :=
  String.mk ((((s.toList).dropWhile isPySpace).reverse.dropWhile isPySpace).reverse)

/-- Lines 101-104: the body of the document, one line per entry in track
order. -/
def render_body : List CaptionEntry → String
  | [] => ""
  | e :: rest =>
    "[" ++ format_timestamp e.start ++ "] " ++ pyStrip e.text ++ "\n" ++ render_body rest

/-- Lines 95-99: the header block. -/
def doc_header (title video_id lang extracted_on : String) : String :=
  "Transcript for: " ++ title ++ "\n" ++
  "Video ID: " ++ video_id ++ "\n" ++
  "Language: " ++ (if lang.isEmpty then "Unknown" else lang) ++ "\n" ++
  "Extracted on: " ++ extracted_on ++ "\n" ++
  String.mk (List.replicate 60 '=') ++ "\n\n"

/-- Lines 90-111: the success path — fetch the title, render header and
body, derive the filename.  Returns the `(transcript_text, filename)`
pair; the first component is `some` exactly on success. -/
def formatSuccess (title_resp : TitleResponse) (video_id lang now_datetime now_date : String)
    (track : List CaptionEntry) : Option String × String :=
  let video_title := get_video_title title_resp video_id
  (some (doc_header video_title video_id lang now_datetime ++ render_body track),
   make_filename video_title video_id now_date)

/-- Lines 78-88 fallback block: attempt the unrestricted fetch, fail with
`"No transcript available: " ++ str(e)` if it raises, fail with
`"No transcript available"` if the resulting track is still empty, and
otherwise format with `found_language = "auto-detected"`. -/
def autoPath (fetch : FetchOracle) (title_resp : TitleResponse)
    (video_id now_datetime now_date : String) : Option String × String :=
  match fetch none with
  | Except.error e => (none, "No transcript available: " ++ e)
  | Except.ok tl =>
    if tl.isEmpty then (none, "No transcript available")
    else formatSuccess title_resp video_id "auto-detected" now_datetime now_date tl

/-- Embedding of `get_youtube_transcript` (lines 59-114): run the priority
loop; if it produced no track or an empty one, run the fallback block;
otherwise format the found track with its language code. -/
def get_youtube_transcript (fetch : FetchOracle) (title_resp : TitleResponse)
    (video_id now_datetime now_date : String) : Option String × String :=
  match tryPriority fetch language_priority with
  | some (tl, lang) =>
    if tl.isEmpty then autoPath fetch title_resp video_id now_datetime now_date
    else formatSuccess title_resp video_id lang now_datetime now_date tl
  | none => autoPath fetch title_resp video_id now_datetime now_date

/-- Entry describing one probed language in `get_available_transcripts`. -/
structure TranscriptInfo where
  language : String
  language_code : String
  is_generated : Bool
  is_translatable : Bool
deriving DecidableEq

/-- Line 123: the broader probe list. -/
def common_languages : List String :=
  ["hi", "hi-IN", "en", "en-US", "en-GB", "es", "fr", "de", "ja", "ko"]

/-- Embedding of `get_available_transcripts` (lines 117-153): probe each
common language with a restricted fetch, recording the ones that do not
raise; if none succeeded, probe the unrestricted fetch and record it as the
auto-detected entry. -/
def get_available_transcripts (fetch : FetchOracle) : List TranscriptInfo :=
  let available := common_languages.filterMap fun lang =>
    match fetch (some lang) with
    | Except.ok _ => some ⟨lang, lang, false, true⟩
    | Except.error _ => none
  if available.isEmpty then
    match fetch none with
    | Except.ok _ => [⟨"auto-detected", "auto", true, false⟩]
    | Except.error _ => []
  else available

/-! ## Resolver theorems -/

theorem tryPriority_append_of_errors (fetch : FetchOracle) (pre : List String)
    (h : ∀ l ∈ pre, ∃ e, fetch (some l) = Except.error e) (rest : List String) :
    tryPriority fetch (pre ++ rest) = tryPriority fetch rest := by
  induction pre with
  | nil => rfl
  | cons p ps ih =>
    obtain ⟨e, he⟩ := h p (List.mem_cons_self p ps)
    simp only [List.cons_append, tryPriority, he]
    exact ih (fun l hl => h l (List.mem_cons_of_mem p hl))

theorem tryPriority_none_of_errors (fetch : FetchOracle) (langs : List String)
    (h : ∀ l ∈ langs, ∃ e, fetch (some l) = Except.error e) :
    tryPriority fetch langs = none := by
  have h1 := tryPriority_append_of_errors fetch langs h []
  rw [List.append_nil] at h1
  rw [h1]
  rfl

/-- C3: the resolver walks the fixed priority list in order and the first
language whose restricted fetch succeeds wins, its code becoming the
language label; in particular, when both `hi` and `en` fetches succeed the
result is the `hi` track labelled `"hi"`, never `en`. -/
theorem C3_priority_first_wins :
    (∀ (fetch : FetchOracle) (pre post : List String) (lang : String)
        (tl : List CaptionEntry),
      (∀ l ∈ pre, ∃ e, fetch (some l) = Except.error e) →
      fetch (some lang) = Except.ok tl →
      tryPriority fetch (pre ++ lang :: post) = some (tl, lang)) ∧
    (∀ (fetch : FetchOracle) (tlh tle : List CaptionEntry),
      fetch (some "hi") = Except.ok tlh →
      fetch (some "en") = Except.ok tle →
      tryPriority fetch language_priority = some (tlh, "hi") ∧
      (tryPriority fetch language_priority).map Prod.snd ≠ some "en") := by
  constructor
  · intro fetch pre post lang tl hpre hok
    rw [tryPriority_append_of_errors fetch pre hpre]
    simp only [tryPriority, hok]
  · intro fetch tlh tle hhi _
    have h1 : tryPriority fetch language_priority = some (tlh, "hi") := by
      simp only [language_priority, tryPriority, hhi]
    refine ⟨h1, ?_⟩
    rw [h1]
    simp

theorem C3_priority_first_wins_witness :
    tryPriority
      (fun q => match q with
        | some "hi" => Except.ok [⟨0, "h"⟩]
        | some "en" => Except.ok [⟨0, "e"⟩]
        | _ => Except.error "nf")
      language_priority = some ([⟨0, "h"⟩], "hi") :=
  (C3_priority_first_wins.2
    (fun q => match q with
      | some "hi" => Except.ok [⟨0, "h"⟩]
      | some "en" => Except.ok [⟨0, "e"⟩]
      | _ => Except.error "nf")
    [⟨0, "h"⟩] [⟨0, "e"⟩] rfl rfl).1

/-- C4 counterexample: the claim says the unrestricted fallback attempt is
made if and only if no prioritized-language fetch succeeds, and that a
successful fallback fetch always yields a successful resolution.  Both
directions fail on an empty returned track: below, the `hi` fetch succeeds
(with an empty track) yet the fallback is still attempted; and with every
fetch returning an empty track the fallback fetch succeeds yet resolution
fails. -/
theorem C4_auto_fallback_counterexample :
    (fun q => match q with
      | some "hi" => Except.ok ([] : List CaptionEntry)
      | _ => Except.error "nf" : FetchOracle) (some "hi") = Except.ok [] ∧
    auto_attempted
      (fun q => match q with
        | some "hi" => Except.ok ([] : List CaptionEntry)
        | _ => Except.error "nf") = true ∧
    (fun _ => Except.ok ([] : List CaptionEntry) : FetchOracle) none = Except.ok [] ∧
    get_youtube_transcript (fun _ => Except.ok ([] : List CaptionEntry))
      TitleResponse.err "v" "2024-01-01 00:00:00" "20240101" =
      (none, "No transcript available") := by
  exact ⟨rfl, rfl, rfl, rfl⟩

/-- C4 amended: the unrestricted fallback attempt is made iff either no
prioritized-language fetch succeeds or the first successful prioritized
fetch returned an empty track; when the fallback is attempted and the
unrestricted fetch succeeds with a nonempty track, resolution succeeds
(no error), with the sentinel label `"auto-detected"`. -/
theorem C4_auto_fallback_amended :
    (∀ fetch : FetchOracle,
      auto_attempted fetch = true ↔
        (tryPriority fetch language_priority = none ∨
         ∃ lang, tryPriority fetch language_priority = some ([], lang))) ∧
    (∀ (fetch : FetchOracle) (r : TitleResponse) (vid d1 d2 : String)
        (tl : List CaptionEntry),
      auto_attempted fetch = true →
      fetch none = Except.ok tl → tl ≠ [] →
      get_youtube_transcript fetch r vid d1 d2 =
        formatSuccess r vid "auto-detected" d1 d2 tl ∧
      (get_youtube_transcript fetch r vid d1 d2).1.isSome = true) := by
  constructor
  · intro fetch
    unfold auto_attempted
    cases h : tryPriority fetch language_priority with
    | none => simp
    | some p =>
      obtain ⟨tl, lang⟩ := p
      simp only [List.isEmpty_iff, Option.some.injEq, Prod.mk.injEq, reduceCtorEq,
        false_or]
      constructor
      · intro htl
        exact ⟨lang, by simp [htl]⟩
      · rintro ⟨l, hl1, hl2⟩
        exact hl1
  · intro fetch r vid d1 d2 tl hatt hok htl
    have hempty : tl.isEmpty = false := by
      cases tl with
      | nil => exact absurd rfl htl
      | cons a l => rfl
    have hauto : autoPath fetch r vid d1 d2 =
        formatSuccess r vid "auto-detected" d1 d2 tl := by
      unfold autoPath
      rw [hok]
      simp [hempty]
    have hmain : get_youtube_transcript fetch r vid d1 d2 =
        formatSuccess r vid "auto-detected" d1 d2 tl := by
      unfold get_youtube_transcript
      unfold auto_attempted at hatt
      cases h : tryPriority fetch language_priority with
      | none => exact hauto
      | some p =>
        obtain ⟨tl0, lang0⟩ := p
        rw [h] at hatt
        have hatt2 : tl0.isEmpty = true := hatt
        simp [hatt2, hauto]
    refine ⟨hmain, ?_⟩
    rw [hmain]
    rfl

theorem C4_auto_fallback_amended_witness :
    get_youtube_transcript
      (fun q => match q with
        | none => Except.ok [⟨0, "a"⟩]
        | _ => Except.error "nf")
      TitleResponse.err "v" "2024-01-01 00:00:00" "20240101" =
      formatSuccess TitleResponse.err "v" "auto-detected"
        "2024-01-01 00:00:00" "20240101" [⟨0, "a"⟩] :=
  (C4_auto_fallback_amended.2
    (fun q => match q with
      | none => Except.ok [⟨0, "a"⟩]
      | _ => Except.error "nf")
    TitleResponse.err "v" "2024-01-01 00:00:00" "20240101" [⟨0, "a"⟩]
    rfl rfl (by simp)).1

theorem probe_filterMap_nil (fetch : FetchOracle) (langs : List String)
    (h : ∀ l ∈ langs, ∃ e, fetch (some l) = Except.error e) :
    (langs.filterMap fun lang =>
      match fetch (some lang) with
      | Except.ok _ => some (⟨lang, lang, false, true⟩ : TranscriptInfo)
      | Except.error _ => none) = [] := by
  induction langs with
  | nil => rfl
  | cons l ls ih =>
    obtain ⟨e, he⟩ := h l (List.mem_cons_self l ls)
    rw [List.filterMap_cons, he]
    exact ih (fun x hx => h x (List.mem_cons_of_mem l hx))

/-- C5: when every fetch attempt fails, the resolution fails with a message
carrying the description of the error of the last attempt (the unrestricted
one) and produces no caption track, and the informational listing of
available transcripts is empty. -/
theorem C5_exhaustion_failure :
    ∀ (fetch : FetchOracle) (r : TitleResponse) (vid d1 d2 : String),
      (∀ q, ∃ e, fetch q = Except.error e) →
      (∃ e, fetch none = Except.error e ∧
        get_youtube_transcript fetch r vid d1 d2 =
          (none, "No transcript available: " ++ e)) ∧
      get_available_transcripts fetch = [] := by
  intro fetch r vid d1 d2 h
  obtain ⟨e, he⟩ := h none
  have hprio : tryPriority fetch language_priority = none :=
    tryPriority_none_of_errors fetch language_priority (fun l _ => h (some l))
  constructor
  · refine ⟨e, he, ?_⟩
    unfold get_youtube_transcript
    rw [hprio]
    unfold autoPath
    rw [he]
  · unfold get_available_transcripts
    rw [probe_filterMap_nil fetch common_languages (fun l _ => h (some l))]
    rw [he]
    rfl

theorem C5_exhaustion_failure_witness :
    (∃ e, (fun _ => Except.error "captions disabled" : FetchOracle) none =
        Except.error e ∧
      get_youtube_transcript (fun _ => Except.error "captions disabled")
        TitleResponse.err "v" "2024-01-01 00:00:00" "20240101" =
        (none, "No transcript available: " ++ e)) ∧
    get_available_transcripts (fun _ => Except.error "captions disabled") = [] :=
  C5_exhaustion_failure (fun _ => Except.error "captions disabled")
    TitleResponse.err "v" "2024-01-01 00:00:00" "20240101"
    (fun _ => ⟨"captions disabled", rfl⟩)

/-- C9: failure of the title lookup never changes whether resolution
succeeds; a failed lookup (exception, or any non-200 status) degrades to
the fallback title `Video_<video_id>`, and a successful resolution still
produces the document and the filename, built from the fallback title. -/
theorem C9_title_failure_harmless :
    (∀ (fetch : FetchOracle) (vid d1 d2 : String) (r r2 : TitleResponse),
      (get_youtube_transcript fetch r vid d1 d2).1.isSome =
        (get_youtube_transcript fetch r2 vid d1 d2).1.isSome) ∧
    (∀ vid, get_video_title TitleResponse.err vid = "Video_" ++ vid) ∧
    (∀ (vid : String) (status : Nat) (t : Option String), status ≠ 200 →
      get_video_title (TitleResponse.resp status t) vid = "Video_" ++ vid) ∧
    (∀ (fetch : FetchOracle) (vid d1 d2 lang : String) (tl : List CaptionEntry),
      tryPriority fetch language_priority = some (tl, lang) → tl ≠ [] →
      get_youtube_transcript fetch TitleResponse.err vid d1 d2 =
        (some (doc_header ("Video_" ++ vid) vid lang d1 ++ render_body tl),
         make_filename ("Video_" ++ vid) vid d2)) := by
  refine ⟨?_, fun vid => rfl, ?_, ?_⟩
  · intro fetch vid d1 d2 r r2
    unfold get_youtube_transcript autoPath formatSuccess
    cases tryPriority fetch language_priority with
    | none =>
      cases fetch none with
      | error e => rfl
      | ok tl => cases htl : tl.isEmpty <;> simp [htl]
    | some p =>
      obtain ⟨tl, lang⟩ := p
      cases htl : tl.isEmpty with
      | true =>
        simp only [htl, if_true]
        cases fetch none with
        | error e => rfl
        | ok tl2 => cases htl2 : tl2.isEmpty <;> simp [htl2]
      | false => simp [htl]
  · intro vid status t hstatus
    simp [get_video_title, hstatus]
  · intro fetch vid d1 d2 lang tl hprio htl
    have hempty : tl.isEmpty = false := by
      cases tl with
      | nil => exact absurd rfl htl
      | cons a l => rfl
    unfold get_youtube_transcript
    rw [hprio]
    simp only [hempty, Bool.false_eq_true, if_false]
    rfl

theorem C9_title_failure_harmless_witness :
    get_video_title (TitleResponse.resp 404 (some "Real Title")) "v" = "Video_v" ∧
    get_youtube_transcript
      (fun q => match q with
        | some "hi" => Except.ok [⟨0, "x"⟩]
        | _ => Except.error "nf")
      TitleResponse.err "v" "2024-01-01 00:00:00" "20240101" =
      (some (doc_header "Video_v" "v" "hi" "2024-01-01 00:00:00" ++
          render_body [⟨0, "x"⟩]),
       make_filename "Video_v" "v" "20240101") :=
  ⟨C9_title_failure_harmless.2.2.1 "v" 404 (some "Real Title") (by decide),
   C9_title_failure_harmless.2.2.2
    (fun q => match q with
      | some "hi" => Except.ok [⟨0, "x"⟩]
      | _ => Except.error "nf")
    "v" "2024-01-01 00:00:00" "20240101" "hi" [⟨0, "x"⟩] rfl (by simp)⟩

/-- C10: an empty caption track is treated as absent — a prioritized fetch
that succeeds with zero entries falls through to the unrestricted fallback
block, and if the finally resolved track is also empty the operation
returns a failure instead of a document with an empty body. -/
theorem C10_empty_track_is_absent :
    ∀ (fetch : FetchOracle) (r : TitleResponse) (vid d1 d2 lang : String),
      tryPriority fetch language_priority = some ([], lang) →
      get_youtube_transcript fetch r vid d1 d2 = autoPath fetch r vid d1 d2 ∧
      (fetch none = Except.ok [] →
        get_youtube_transcript fetch r vid d1 d2 = (none, "No transcript available")) ∧
      (∀ tl2 : List CaptionEntry, fetch none = Except.ok tl2 → tl2 ≠ [] →
        get_youtube_transcript fetch r vid d1 d2 =
          formatSuccess r vid "auto-detected" d1 d2 tl2) := by
  intro fetch r vid d1 d2 lang hprio
  have hfall : get_youtube_transcript fetch r vid d1 d2 =
      autoPath fetch r vid d1 d2 := by
    unfold get_youtube_transcript
    rw [hprio]
    rfl
  refine ⟨hfall, ?_, ?_⟩
  · intro hok
    rw [hfall]
    unfold autoPath
    rw [hok]
    rfl
  · intro tl2 hok htl2
    have hempty : tl2.isEmpty = false := by
      cases tl2 with
      | nil => exact absurd rfl htl2
      | cons a l => rfl
    rw [hfall]
    unfold autoPath
    rw [hok]
    simp [hempty]

theorem C10_empty_track_is_absent_witness :
    get_youtube_transcript (fun _ => Except.ok ([] : List CaptionEntry))
      TitleResponse.err "v" "2024-01-01 00:00:00" "20240101" =
      (none, "No transcript available") :=
  (C10_empty_track_is_absent (fun _ => Except.ok ([] : List CaptionEntry))
    TitleResponse.err "v" "2024-01-01 00:00:00" "20240101" "hi" rfl).2.1 rfl

/-- C8: the document body has exactly one line per caption entry, in track
order, of the form `[<timestamp>] <stripped text>`; stripping removes only
leading and trailing whitespace (the stripped text is a contiguous segment
of the original); and the track `[(0.0, "Hello"), (1.5, "world ")]`
renders exactly as `"[00:00] Hello\n[00:01] world\n"`. -/
theorem C8_body_rendering :
    (∀ (e : CaptionEntry) (rest : List CaptionEntry),
      render_body (e :: rest) =
        "[" ++ format_timestamp e.start ++ "] " ++ pyStrip e.text ++ "\n" ++
          render_body rest) ∧
    render_body [] = "" ∧
    (∀ s : String, (pyStrip s).toList <:+: s.toList) ∧
    render_body [⟨0, "Hello"⟩, ⟨3 / 2, "world "⟩] =
      "[00:00] Hello\n[00:01] world\n" := by
  refine ⟨fun e rest => rfl, rfl, ?_, ?_⟩
  · intro s
    have h1 : (pyStrip s).toList =
        List.rdropWhile isPySpace (s.toList.dropWhile isPySpace) := rfl
    rw [h1]
    exact ((List.rdropWhile_prefix _ _).isInfix).trans
      ((List.dropWhile_suffix _).isInfix)
  · have h0 : format_timestamp 0 = "00:00" := by
      rw [format_timestamp_eq_spec 0 (by norm_num)]
      simp only [spec_format_timestamp, Nat.floor_zero]
      decide
    have h1 : format_timestamp (3 / 2) = "00:01" := by
      rw [format_timestamp_eq_spec (3 / 2) (by norm_num)]
      have hf : ⌊(3 / 2 : ℚ)⌋₊ = 1 := by
        rw [Nat.floor_eq_iff (by norm_num)]
        norm_num
      simp only [spec_format_timestamp, hf]
      decide
    simp only [render_body, h0, h1]
    decide

/-! ## URL parsing (`extract_video_id`, lines 12-26, and
`is_valid_youtube_url`, lines 156-168)

The two regular expressions of `extract_video_id` are embedded as direct
scanners over character lists.  The first pattern is an alternation of five
literal markers followed by a nonempty greedy capture `([^&\n?#]+)`;
`re.search` tries each position left to right and, at a position, the
alternation branches in written order.  The second pattern is
`youtube\.com/watch\?` followed by a greedy `.*` (which cannot cross a
newline and prefers the rightmost viable `v=`) and the same capture. -/

/-- The capture class `[^&\n?#]` is complemented: these characters stop it. -/
def stopChar (c : Char) : Bool :=
  c = '&' || c = '\n' || c = '?' || c = '#'

/-- Literal alternative `youtube\.com/watch\?v=` of the first pattern. -/
def marker_watch : List Char := "youtube.com/watch?v=".toList

/-- Literal alternative `youtu\.be/` of the first pattern. -/
def marker_short : List Char := "youtu.be/".toList

/-- Literal alternative `youtube\.com/embed/` of the first pattern. -/
def marker_embed : List Char := "youtube.com/embed/".toList

/-- Literal alternative `youtube\.com/v/` of the first pattern. -/
def marker_v : List Char := "youtube.com/v/".toList

/-- Literal alternative `m\.youtube\.com/watch\?v=` of the first pattern. -/
def marker_mobile : List Char := "m.youtube.com/watch?v=".toList

/-- Literal head `youtube\.com/watch\?` of the second pattern. -/
def marker_watch_any : List Char := "youtube.com/watch?".toList

/-- Match one alternative at the current position: the literal marker, then
the capture `([^&\n?#]+)` — at least one character, extended greedily. -/
def tryMarker (m s : List Char) : Option (List Char) :=
  if m.isPrefixOf s then
    let cap := (s.drop m.length).takeWhile fun c => !stopChar c
    if cap.isEmpty then none else some cap
  else none

/-- The five alternatives of the first pattern, in the written order. -/
def matchAlt1 (s : List Char) : Option (List Char) :=
  tryMarker marker_watch s <|> tryMarker marker_short s <|>
    tryMarker marker_embed s <|> tryMarker marker_v s <|>
    tryMarker marker_mobile s

/-- Scan of the first pattern over all start positions, leftmost first. -/
def searchPat1 : List Char → Option (List Char)
  | [] => none
  | c :: rest => matchAlt1 (c :: rest) <|> searchPat1 rest

/-- Attempt `v=([^&\n?#]+)` exactly at this position. -/
def vEqHere : List Char → Option (List Char)
  | 'v' :: '=' :: r =>
    let cap := r.takeWhile fun c => !stopChar c
    if cap.isEmpty then none else some cap
  | _ => none

/-- The suffix `.*v=([^&\n?#]+)` of the second pattern: the greedy `.*`
cannot cross a newline and prefers consuming (the rightmost viable `v=`),
falling back to matching `v=` at the current position. -/
def pat2Greedy : List Char → Option (List Char)
  | [] => none
  | c :: rest => (if c = '\n' then none else pat2Greedy rest) <|> vEqHere (c :: rest)

/-- Scan of the second pattern over all start positions, leftmost first. -/
def searchPat2 : List Char → Option (List Char)
  | [] => none
  | c :: rest =>
    (if marker_watch_any.isPrefixOf (c :: rest) then
      pat2Greedy ((c :: rest).drop marker_watch_any.length)
     else none) <|> searchPat2 rest

/-- Embedding of `extract_video_id` on character lists: the patterns are
tried in order, first match wins, `none` when neither matches. -/
def extract_core (l : List Char) : Option (List Char) :=
  match searchPat1 l with
  | some cap => some cap
  | none => searchPat2 l

/-- Embedding of `extract_video_id(url)` (lines 12-26). -/
def extract_video_id (url : String) : Option String :=
  (extract_core url.toList).map String.mk

/-- Case-insensitive prefix test (`re.IGNORECASE` matching of a literal). -/
def ciPrefix : List Char → List Char → Bool
  | [], _ => true
  | _ :: _, [] => false
  | a :: as, b :: bs => (a.toLower == b.toLower) && ciPrefix as bs

/-- Host alternative `youtube\.com` of the validity pattern. -/
def host_youtube : List Char := "youtube.com".toList

/-- Host alternative `youtu\.be` of the validity pattern. -/
def host_short : List Char := "youtu.be".toList

/-- Host alternative `m\.youtube\.com` of the validity pattern. -/
def host_mobile : List Char := "m.youtube.com".toList

/-- The group `(youtube\.com|youtu\.be|m\.youtube\.com)` at a position. -/
def hostAlt (s : List Char) : Bool :=
  ciPrefix host_youtube s || ciPrefix host_short s || ciPrefix host_mobile s

/-- Choices of the optional group `(https?://)?` at a position (consume the
scheme, or match it empty). -/
def schemeChoices (s : List Char) : List (List Char) :=
  (if ciPrefix "https://".toList s then [s.drop 8] else []) ++
    (if ciPrefix "http://".toList s then [s.drop 7] else []) ++ [s]

/-- Choices of the optional group `(www\.)?` at a position. -/
def wwwChoices (s : List Char) : List (List Char) :=
  (if ciPrefix "www.".toList s then [s.drop 4] else []) ++ [s]

/-- The whole validity pattern anchored at one position: some combination of
the optional scheme and `www.` groups followed by a host alternative. -/
def matchValidAt (s : List Char) : Bool :=
  (schemeChoices s).any fun t => (wwwChoices t).any hostAlt

/-- Scan of the validity pattern over all start positions. -/
def searchValid : List Char → Bool
  | [] => matchValidAt []
  | c :: rest => matchValidAt (c :: rest) || searchValid rest

/-- Embedding of `is_valid_youtube_url(url)` (lines 156-168). -/
def is_valid_youtube_url (url : String) : Bool :=
  searchValid url.toList

/-- Case-insensitive substring test, used to state the claim. -/
def containsCI (needle : List Char) : List Char → Bool
  | [] => ciPrefix needle []
  | c :: rest => ciPrefix needle (c :: rest) || containsCI needle rest

/-- From the claim wording: the text contains one of the recognized YouTube
host substrings, matched case-insensitively. -/
def containsHost (l : List Char) : Bool :=
  containsCI host_youtube l || containsCI host_short l || containsCI host_mobile l

/-! ## URL parser lemmas -/

theorem marker_watch_chars : marker_watch =
    ['y','o','u','t','u','b','e','.','c','o','m','/','w','a','t','c','h','?','v','='] := by
  decide

theorem marker_short_chars : marker_short =
    ['y','o','u','t','u','.','b','e','/'] := by decide

theorem marker_embed_chars : marker_embed =
    ['y','o','u','t','u','b','e','.','c','o','m','/','e','m','b','e','d','/'] := by decide

theorem marker_v_chars : marker_v =
    ['y','o','u','t','u','b','e','.','c','o','m','/','v','/'] := by decide

theorem marker_mobile_chars : marker_mobile =
    ['m','.','y','o','u','t','u','b','e','.','c','o','m','/','w','a','t','c','h','?','v','='] := by
  decide

theorem isPrefixOf_append_self (l t : List Char) : l.isPrefixOf (l ++ t) = true := by
  induction l with
  | nil =>
    rw [List.nil_append]
    cases t <;> rfl
  | cons a as ih => simp [List.isPrefixOf, ih]

theorem drop_len_append (l t : List Char) : (l ++ t).drop l.length = t := by
  induction l with
  | nil => rfl
  | cons a as ih => simp [ih]

theorem takeWhile_not_stop (id sfx : List Char)
    (hid : ∀ c ∈ id, stopChar c = false)
    (hs : ∀ c ∈ sfx.take 1, stopChar c = true) :
    (id ++ sfx).takeWhile (fun c => !stopChar c) = id := by
  induction id with
  | nil =>
    cases sfx with
    | nil => rfl
    | cons c r =>
      have hc := hs c (by simp)
      simp [List.takeWhile_cons, hc]
  | cons a l ih =>
    have ha := hid a (by simp)
    simp [List.takeWhile_cons, ha, ih (fun c hc => hid c (by simp [hc]))]

theorem tryMarker_self (m id sfx : List Char) (hid0 : id ≠ [])
    (hid : ∀ c ∈ id, stopChar c = false)
    (hs : ∀ c ∈ sfx.take 1, stopChar c = true) :
    tryMarker m (m ++ (id ++ sfx)) = some id := by
  have hempty : id.isEmpty = false := by
    cases id with
    | nil => exact absurd rfl hid0
    | cons a l => rfl
  simp [tryMarker, isPrefixOf_append_self, drop_len_append,
    takeWhile_not_stop id sfx hid hs, hempty]

theorem tryMarker_none (m s : List Char) (h : m.isPrefixOf s = false) :
    tryMarker m s = none := by
  simp [tryMarker, h]

theorem searchPat1_eq_some (l r : List Char) (hl : l ≠ [])
    (h : matchAlt1 l = some r) : searchPat1 l = some r := by
  cases l with
  | nil => exact absurd rfl hl
  | cons c s => simp [searchPat1, h]

theorem matchAlt1_skip (c : Char) (s : List Char) (hy : c ≠ 'y') (hm : c ≠ 'm') :
    matchAlt1 (c :: s) = none := by
  have hy2 : ('y' == c) = false := beq_eq_false_iff_ne.mpr (fun h => hy h.symm)
  have hm2 : ('m' == c) = false := beq_eq_false_iff_ne.mpr (fun h => hm h.symm)
  unfold matchAlt1
  rw [tryMarker_none _ _ (by rw [marker_watch_chars]; simp [List.isPrefixOf, hy2]),
      tryMarker_none _ _ (by rw [marker_short_chars]; simp [List.isPrefixOf, hy2]),
      tryMarker_none _ _ (by rw [marker_embed_chars]; simp [List.isPrefixOf, hy2]),
      tryMarker_none _ _ (by rw [marker_v_chars]; simp [List.isPrefixOf, hy2]),
      tryMarker_none _ _ (by rw [marker_mobile_chars]; simp [List.isPrefixOf, hm2])]
  rfl

theorem searchPat1_append (pre t : List Char)
    (h : ∀ c ∈ pre, c ≠ 'y' ∧ c ≠ 'm') :
    searchPat1 (pre ++ t) = searchPat1 t := by
  induction pre with
  | nil => rfl
  | cons c l ih =>
    have hc := h c (by simp)
    rw [List.cons_append]
    show (matchAlt1 (c :: (l ++ t)) <|> searchPat1 (l ++ t)) = searchPat1 t
    rw [matchAlt1_skip c _ hc.1 hc.2, ih (fun x hx => h x (by simp [hx]))]
    rfl

theorem matchAlt1_watch (id sfx : List Char) (hid0 : id ≠ [])
    (hid : ∀ c ∈ id, stopChar c = false)
    (hs : ∀ c ∈ sfx.take 1, stopChar c = true) :
    matchAlt1 (marker_watch ++ (id ++ sfx)) = some id := by
  unfold matchAlt1
  rw [tryMarker_self marker_watch id sfx hid0 hid hs]
  rfl

theorem matchAlt1_short (id sfx : List Char) (hid0 : id ≠ [])
    (hid : ∀ c ∈ id, stopChar c = false)
    (hs : ∀ c ∈ sfx.take 1, stopChar c = true) :
    matchAlt1 (marker_short ++ (id ++ sfx)) = some id := by
  unfold matchAlt1
  rw [tryMarker_none _ _ (by
        simp +decide [marker_watch_chars, marker_short_chars, List.isPrefixOf]),
      tryMarker_self marker_short id sfx hid0 hid hs]
  rfl

theorem matchAlt1_embed (id sfx : List Char) (hid0 : id ≠ [])
    (hid : ∀ c ∈ id, stopChar c = false)
    (hs : ∀ c ∈ sfx.take 1, stopChar c = true) :
    matchAlt1 (marker_embed ++ (id ++ sfx)) = some id := by
  unfold matchAlt1
  rw [tryMarker_none _ _ (by
        simp +decide [marker_watch_chars, marker_embed_chars, List.isPrefixOf]),
      tryMarker_none _ _ (by
        simp +decide [marker_short_chars, marker_embed_chars, List.isPrefixOf]),
      tryMarker_self marker_embed id sfx hid0 hid hs]
  rfl

theorem matchAlt1_v (id sfx : List Char) (hid0 : id ≠ [])
    (hid : ∀ c ∈ id, stopChar c = false)
    (hs : ∀ c ∈ sfx.take 1, stopChar c = true) :
    matchAlt1 (marker_v ++ (id ++ sfx)) = some id := by
  unfold matchAlt1
  rw [tryMarker_none _ _ (by
        simp +decide [marker_watch_chars, marker_v_chars, List.isPrefixOf]),
      tryMarker_none _ _ (by
        simp +decide [marker_short_chars, marker_v_chars, List.isPrefixOf]),
      tryMarker_none _ _ (by
        simp +decide [marker_embed_chars, marker_v_chars, List.isPrefixOf]),
      tryMarker_self marker_v id sfx hid0 hid hs]
  rfl

theorem matchAlt1_mobile (id sfx : List Char) (hid0 : id ≠ [])
    (hid : ∀ c ∈ id, stopChar c = false)
    (hs : ∀ c ∈ sfx.take 1, stopChar c = true) :
    matchAlt1 (marker_mobile ++ (id ++ sfx)) = some id := by
  unfold matchAlt1
  rw [tryMarker_none _ _ (by
        simp +decide [marker_watch_chars, marker_mobile_chars, List.isPrefixOf]),
      tryMarker_none _ _ (by
        simp +decide [marker_short_chars, marker_mobile_chars, List.isPrefixOf]),
      tryMarker_none _ _ (by
        simp +decide [marker_embed_chars, marker_mobile_chars, List.isPrefixOf]),
      tryMarker_none _ _ (by
        simp +decide [marker_v_chars, marker_mobile_chars, List.isPrefixOf]),
      tryMarker_self marker_mobile id sfx hid0 hid hs]
  rfl

theorem extract_core_at (pre m id sfx : List Char)
    (hpre : ∀ c ∈ pre, c ≠ 'y' ∧ c ≠ 'm') (hm0 : m ≠ [])
    (hmm : matchAlt1 (m ++ (id ++ sfx)) = some id) :
    extract_core (pre ++ m ++ id ++ sfx) = some id := by
  have hassoc : pre ++ m ++ id ++ sfx = pre ++ (m ++ (id ++ sfx)) := by
    simp [List.append_assoc]
  have h1 : searchPat1 (pre ++ m ++ id ++ sfx) = some id := by
    rw [hassoc, searchPat1_append pre _ hpre]
    refine searchPat1_eq_some _ _ ?_ hmm
    cases m with
    | nil => exact absurd rfl hm0
    | cons a l => simp
  unfold extract_core
  rw [h1]

theorem extract_video_id_mk (l : List Char) :
    extract_video_id (String.mk l) = (extract_core l).map String.mk := rfl

/-- C6: for each recognized link shape, with an arbitrary nonempty
identifier free of stop characters and an arbitrary tail that begins with
one of `&`, newline, `?`, `#` (or is empty), extraction returns exactly the
identifier — nothing of the tail leaks in; and on the generic
`watch?...v=` query form the identifier is cut at the first stop character
as well. -/
theorem C6_extract_exact_identifier :
    (∀ id sfx : List Char, id ≠ [] →
      (∀ c ∈ id, stopChar c = false) →
      (∀ c ∈ sfx.take 1, stopChar c = true) →
      extract_video_id
          (String.mk ("https://www.youtube.com/watch?v=".toList ++ id ++ sfx)) =
        some (String.mk id) ∧
      extract_video_id
          (String.mk ("https://youtu.be/".toList ++ id ++ sfx)) =
        some (String.mk id) ∧
      extract_video_id
          (String.mk ("https://youtube.com/embed/".toList ++ id ++ sfx)) =
        some (String.mk id) ∧
      extract_video_id
          (String.mk ("https://youtube.com/v/".toList ++ id ++ sfx)) =
        some (String.mk id) ∧
      extract_video_id
          (String.mk ("https://m.youtube.com/watch?v=".toList ++ id ++ sfx)) =
        some (String.mk id)) ∧
    extract_video_id "https://www.youtube.com/watch?list=PLx&v=dQw4w9&t=10s#frag" =
      some "dQw4w9" := by
  constructor
  · intro id sfx hid0 hid hs
    refine ⟨?_, ?_, ?_, ?_, ?_⟩
    · rw [extract_video_id_mk,
        show "https://www.youtube.com/watch?v=".toList =
          "https://www.".toList ++ marker_watch by decide,
        extract_core_at "https://www.".toList marker_watch id sfx (by decide)
          (by decide) (matchAlt1_watch id sfx hid0 hid hs)]
      rfl
    · rw [extract_video_id_mk,
        show "https://youtu.be/".toList = "https://".toList ++ marker_short by decide,
        extract_core_at "https://".toList marker_short id sfx (by decide)
          (by decide) (matchAlt1_short id sfx hid0 hid hs)]
      rfl
    · rw [extract_video_id_mk,
        show "https://youtube.com/embed/".toList =
          "https://".toList ++ marker_embed by decide,
        extract_core_at "https://".toList marker_embed id sfx (by decide)
          (by decide) (matchAlt1_embed id sfx hid0 hid hs)]
      rfl
    · rw [extract_video_id_mk,
        show "https://youtube.com/v/".toList = "https://".toList ++ marker_v by decide,
        extract_core_at "https://".toList marker_v id sfx (by decide)
          (by decide) (matchAlt1_v id sfx hid0 hid hs)]
      rfl
    · rw [extract_video_id_mk,
        show "https://m.youtube.com/watch?v=".toList =
          "https://".toList ++ marker_mobile by decide,
        extract_core_at "https://".toList marker_mobile id sfx (by decide)
          (by decide) (matchAlt1_mobile id sfx hid0 hid hs)]
      rfl
  · decide

theorem C6_extract_exact_identifier_witness :
    extract_video_id
        (String.mk ("https://www.youtube.com/watch?v=".toList ++
          ['a', 'b', 'c'] ++ ['&', 't', '=', '1'])) =
      some (String.mk ['a', 'b', 'c']) :=
  (C6_extract_exact_identifier.1 ['a', 'b', 'c'] ['&', 't', '=', '1']
    (by decide) (by decide) (by decide)).1

theorem ciPrefix_of_isPrefixOf (a : List Char) :
    ∀ b : List Char, a.isPrefixOf b = true → ciPrefix a b = true := by
  induction a with
  | nil => intro b _; cases b <;> rfl
  | cons x xs ih =>
    intro b h
    cases b with
    | nil => simp [List.isPrefixOf] at h
    | cons y ys =>
      simp only [List.isPrefixOf, Bool.and_eq_true] at h
      have hxy : x = y := by simpa using h.1
      simp [ciPrefix, hxy, ih ys h.2]

theorem isPrefixOf_trans (a : List Char) :
    ∀ b c : List Char, a.isPrefixOf b = true → b.isPrefixOf c = true →
      a.isPrefixOf c = true := by
  induction a with
  | nil => intro b c _ _; cases c <;> rfl
  | cons x xs ih =>
    intro b c h1 h2
    cases b with
    | nil => simp [List.isPrefixOf] at h1
    | cons y ys =>
      cases c with
      | nil => simp [List.isPrefixOf] at h2
      | cons z zs =>
        simp only [List.isPrefixOf, Bool.and_eq_true] at h1 h2 ⊢
        have hxy : x = y := by simpa using h1.1
        have hyz : y = z := by simpa using h2.1
        exact ⟨by simp [hxy, hyz], ih ys zs h1.2 h2.2⟩

theorem containsCI_of_suffix (n t l : List Char) (hsuf : t <:+ l)
    (h : ciPrefix n t = true) : containsCI n l = true := by
  induction l with
  | nil =>
    have ht : t = [] := List.suffix_nil.mp hsuf
    rw [ht] at h
    simpa [containsCI] using h
  | cons c rest ih =>
    rcases List.suffix_cons_iff.mp hsuf with h1 | h2
    · subst h1
      simp [containsCI, h]
    · simp [containsCI, ih h2]

theorem containsCI_exists (n l : List Char) (h : containsCI n l = true) :
    ∃ t, t <:+ l ∧ ciPrefix n t = true := by
  induction l with
  | nil => exact ⟨[], List.suffix_rfl, by simpa [containsCI] using h⟩
  | cons c rest ih =>
    simp only [containsCI, Bool.or_eq_true] at h
    rcases h with h1 | h2
    · exact ⟨c :: rest, List.suffix_rfl, h1⟩
    · obtain ⟨t, hs, hp⟩ := ih h2
      exact ⟨t, hs.trans (List.suffix_cons c rest), hp⟩

theorem tryMarker_none_of_noCI (m host t : List Char)
    (hhm : host.isPrefixOf m = true) (hci : ciPrefix host t = false) :
    tryMarker m t = none := by
  rcases Bool.eq_false_or_eq_true (m.isPrefixOf t) with hk | hk
  · have h2 := ciPrefix_of_isPrefixOf host t (isPrefixOf_trans host m t hhm hk)
    rw [hci] at h2
    simp at h2
  · exact tryMarker_none m t hk

theorem searchPat1_none_of_noHost (l : List Char)
    (h1 : containsCI host_youtube l = false)
    (h2 : containsCI host_short l = false)
    (h3 : containsCI host_mobile l = false) :
    searchPat1 l = none := by
  induction l with
  | nil => rfl
  | cons c rest ih =>
    simp only [containsCI, Bool.or_eq_false_iff] at h1 h2 h3
    have hma : matchAlt1 (c :: rest) = none := by
      unfold matchAlt1
      rw [tryMarker_none_of_noCI marker_watch host_youtube (c :: rest) (by decide) h1.1,
          tryMarker_none_of_noCI marker_short host_short (c :: rest) (by decide) h2.1,
          tryMarker_none_of_noCI marker_embed host_youtube (c :: rest) (by decide) h1.1,
          tryMarker_none_of_noCI marker_v host_youtube (c :: rest) (by decide) h1.1,
          tryMarker_none_of_noCI marker_mobile host_mobile (c :: rest) (by decide) h3.1]
      rfl
    simp only [searchPat1, hma, ih h1.2 h2.2 h3.2, Option.none_orElse]

theorem searchPat2_none_of_noHost (l : List Char)
    (h1 : containsCI host_youtube l = false) :
    searchPat2 l = none := by
  induction l with
  | nil => rfl
  | cons c rest ih =>
    simp only [containsCI, Bool.or_eq_false_iff] at h1
    have hpre : marker_watch_any.isPrefixOf (c :: rest) = false := by
      rcases Bool.eq_false_or_eq_true (marker_watch_any.isPrefixOf (c :: rest)) with hk | hk
      · have hx := ciPrefix_of_isPrefixOf host_youtube (c :: rest)
          (isPrefixOf_trans host_youtube marker_watch_any (c :: rest) (by decide) hk)
        rw [h1.1] at hx
        simp at hx
      · exact hk
    simp only [searchPat2, hpre, Bool.false_eq_true, if_false, ih h1.2,
      Option.none_orElse]

theorem schemeChoices_suffix (s x : List Char) (hx : x ∈ schemeChoices s) :
    x <:+ s := by
  simp [schemeChoices] at hx
  rcases hx with ⟨h, rfl⟩ | ⟨h, rfl⟩ | rfl
  · exact List.drop_suffix 8 s
  · exact List.drop_suffix 7 s
  · exact List.suffix_rfl

theorem wwwChoices_suffix (s x : List Char) (hx : x ∈ wwwChoices s) : x <:+ s := by
  simp [wwwChoices] at hx
  rcases hx with ⟨h, rfl⟩ | rfl
  · exact List.drop_suffix 4 s
  · exact List.suffix_rfl

theorem matchValidAt_imp (s : List Char) (h : matchValidAt s = true) :
    ∃ t, t <:+ s ∧ hostAlt t = true := by
  unfold matchValidAt at h
  obtain ⟨t1, ht1, h2⟩ := List.any_eq_true.mp h
  obtain ⟨t2, ht2, h3⟩ := List.any_eq_true.mp h2
  exact ⟨t2, (wwwChoices_suffix t1 t2 ht2).trans (schemeChoices_suffix s t1 ht1), h3⟩

theorem hostAlt_imp_matchValidAt (s : List Char) (h : hostAlt s = true) :
    matchValidAt s = true := by
  unfold matchValidAt
  rw [List.any_eq_true]
  refine ⟨s, by simp [schemeChoices], ?_⟩
  rw [List.any_eq_true]
  exact ⟨s, by simp [wwwChoices], h⟩

theorem searchValid_iff (l : List Char) :
    searchValid l = true ↔ ∃ t, t <:+ l ∧ hostAlt t = true := by
  induction l with
  | nil =>
    constructor
    · intro h
      exact matchValidAt_imp [] h
    · rintro ⟨t, hsuf, hh⟩
      have ht : t = [] := List.suffix_nil.mp hsuf
      subst ht
      exact hostAlt_imp_matchValidAt [] hh
  | cons c rest ih =>
    constructor
    · intro h
      simp only [searchValid, Bool.or_eq_true] at h
      rcases h with h1 | h2
      · exact matchValidAt_imp _ h1
      · obtain ⟨t, hs, hh⟩ := ih.mp h2
        exact ⟨t, hs.trans (List.suffix_cons c rest), hh⟩
    · rintro ⟨t, hsuf, hh⟩
      rcases List.suffix_cons_iff.mp hsuf with h1 | h2
      · subst h1
        simp [searchValid, hostAlt_imp_matchValidAt _ hh]
      · simp [searchValid, ih.mpr ⟨t, h2, hh⟩]

theorem containsHost_iff (l : List Char) :
    containsHost l = true ↔ ∃ t, t <:+ l ∧ hostAlt t = true := by
  constructor
  · intro h
    have h2 : containsCI host_youtube l = true ∨ containsCI host_short l = true ∨
        containsCI host_mobile l = true := by
      simpa [containsHost, Bool.or_eq_true, or_assoc] using h
    rcases h2 with h3 | h3 | h3 <;>
      obtain ⟨t, hs, hp⟩ := containsCI_exists _ _ h3 <;>
      exact ⟨t, hs, by simp [hostAlt, hp]⟩
  · rintro ⟨t, hsuf, hh⟩
    have h2 : ciPrefix host_youtube t = true ∨ ciPrefix host_short t = true ∨
        ciPrefix host_mobile t = true := by
      simpa [hostAlt, Bool.or_eq_true, or_assoc] using hh
    rcases h2 with h3 | h3 | h3 <;>
      simp [containsHost, containsCI_of_suffix _ _ _ hsuf h3]

/-- C7: on text with no recognized YouTube host substring the extractor
returns nothing and the validity predicate is false; and the validity
predicate holds exactly when the text contains one of the recognized host
substrings, matched case-insensitively. -/
theorem C7_invalid_input_behavior :
    (∀ url : String, containsHost url.toList = false →
      extract_video_id url = none ∧ is_valid_youtube_url url = false) ∧
    (∀ url : String,
      is_valid_youtube_url url = true ↔ containsHost url.toList = true) := by
  have hvalid : ∀ url : String,
      is_valid_youtube_url url = true ↔ containsHost url.toList = true := by
    intro url
    unfold is_valid_youtube_url
    rw [searchValid_iff, containsHost_iff]
  constructor
  · intro url h
    have hparts : containsCI host_youtube url.toList = false ∧
        containsCI host_short url.toList = false ∧
        containsCI host_mobile url.toList = false := by
      have h2 := h
      simp only [containsHost, Bool.or_eq_false_iff] at h2
      exact ⟨h2.1.1, h2.1.2, h2.2⟩
    obtain ⟨h1, h2, h3⟩ := hparts
    constructor
    · have hs1 := searchPat1_none_of_noHost url.toList h1 h2 h3
      have hs2 := searchPat2_none_of_noHost url.toList h1
      unfold extract_video_id extract_core
      rw [hs1, hs2]
      rfl
    · rcases Bool.eq_false_or_eq_true (is_valid_youtube_url url) with hv | hv
      · rw [(hvalid url).mp hv] at h
        simp at h
      · exact hv
  · exact hvalid

theorem C7_invalid_input_behavior_witness :
    extract_video_id "this contains no video link at all" = none ∧
    is_valid_youtube_url "this contains no video link at all" = false :=
  C7_invalid_input_behavior.1 "this contains no video link at all" (by decide)
